import Mathlib

/-!
Shallow embedding of the wsi-reader region-addressing layer.

The embedded code is WSIReader in src/wsi_reader/base.py together with the
tifffile backend TiffReader._read_region in src/wsi_reader/tifffile_backend.py.
Python floats are modelled as rationals, numpy arrays as shape-plus-function
buffers, and code paths that raise are modelled with Except.  The bicubic
kernel of cv2.resize is abstracted as a parameter interp; the theorems that
involve resizing assume only the documented shape behaviour of cv2.resize
(output of dsize (w, h) has shape (h, w)).
-/

/-- Python's built-in round on an exact rational value: round half to even. -/
def pyRound (q : ℚ) : ℤ :=
  if Int.fract q < 1/2 then ⌊q⌋
  else if 1/2 < Int.fract q then ⌊q⌋ + 1
  else if 2 ∣ ⌊q⌋ then ⌊q⌋ else ⌊q⌋ + 1

/-- A numpy-style 2-D buffer: a shape (h rows, w columns) plus a total
indexing function.  Entries outside the shape are irrelevant in the model. -/
structure Buf (α : Type) where
  h : ℕ
  w : ℕ
  data : ℕ → ℕ → α

/-- Elementwise map over a buffer, e.g. numpy astype or a pointwise op. -/
def mapBuf {α β : Type} (f : α → β) (b : Buf α) : Buf β :=
  ⟨b.h, b.w, fun i j => f (b.data i j)⟩

/-- The buffer produced by numpy.pad with constant fill and non-negative
pad widths. -/
def padBuf {α : Type} (b : Buf α) (top bottom left right : ℤ) (z : α) : Buf α :=
  ⟨b.h + top.toNat + bottom.toNat, b.w + left.toNat + right.toNat,
   fun i j =>
     if top.toNat ≤ i ∧ i < top.toNat + b.h ∧ left.toNat ≤ j ∧ j < left.toNat + b.w
     then b.data (i - top.toNat) (j - left.toNat) else z⟩

/-- numpy.pad with constant fill.  numpy raises ValueError on a negative pad
width, modelled as none. -/
def npPad {α : Type} (b : Buf α) (top bottom left right : ℤ) (z : α) :
    Option (Buf α) :=
  if top < 0 ∨ bottom < 0 ∨ left < 0 ∨ right < 0 then none
  else some (padBuf b top bottom left right z)

/-- Run-time failures of the embedded code paths. -/
inductive RdErr
  /-- RuntimeError: Downsample factor must be positive. -/
  | invalidArg
  /-- numpy ValueError from np.ones with a negative dimension in
  TiffReader._read_region. -/
  | negativeDims
  /-- Python ZeroDivisionError from an integer floor division by zero. -/
  | zeroDivision
  /-- cv2.error from cv2.resize on an empty source or non-positive dsize. -/
  | cvError
  /-- numpy ValueError from np.pad with a negative pad width. -/
  | padNegative
deriving DecidableEq

/-- The state of an open TiffReader: the per-level (width, height) metadata,
the underlying zarr pixel planes (level, row, column), and whether the slide
dtype is an integer dtype (np.issubdtype(dtype, np.integer)). -/
structure WSI where
  level_dimensions : List (ℕ × ℕ)
  img : ℕ → ℕ → ℕ → ℚ
  isInt : Bool

/-- WSIReader.level_count: number of pyramid levels. -/
def level_count (s : WSI) : ℕ := s.level_dimensions.length

/-- Width of a pyramid level, level_dimensions[l][0]. -/
def levelW (s : WSI) (l : ℕ) : ℕ := (s.level_dimensions.getD l (0, 0)).1

/-- Height of a pyramid level, level_dimensions[l][1]. -/
def levelH (s : WSI) (l : ℕ) : ℕ := (s.level_dimensions.getD l (0, 0)).2

/-- WSIReader.level_downsamples (base.py lines 267-281): for every level,
float(round(width_0 / width_level)). -/
def level_downsamples (s : WSI) : List ℚ :=
  s.level_dimensions.map
    (fun p => ((pyRound ((levelW s 0 : ℚ) / (p.1 : ℚ))) : ℚ))

/-- A window into a level plane starting at pixel (x, y), as produced by
numpy basic slicing of the zarr array. -/
def sliceBuf (s : WSI) (level x y h w : ℕ) : Buf ℚ :=
  ⟨h, w, fun i j => s.img level (y + i) (x + j)⟩

/-- np.ones((h, w), bool). -/
def onesMask (h w : ℕ) : Buf Bool := ⟨h, w, fun _ _ => true⟩

/-- TiffReader._read_region (tifffile_backend.py lines 53-60): numpy basic
slicing of the level plane (a non-negative start and stop clip to the array
extent), paired with the all-true mask np.ones((tile_h, tile_w), bool).
np.ones raises ValueError when a requested dimension is negative.  The
callers in base.py always pass a non-negative origin. -/
def tiff_read_region (s : WSI) (x y : ℕ) (level : ℕ) (tw th : ℤ) :
    Except RdErr (Buf ℚ × Buf Bool) :=
  if tw < 0 ∨ th < 0 then .error .negativeDims
  else
    .ok (sliceBuf s level x y
           (min (y + th.toNat) (levelH s level) - min y (levelH s level))
           (min (x + tw.toNat) (levelW s level) - min x (levelW s level)),
         onesMask th.toNat tw.toNat)

/-- One axis of read_region's clipping block (base.py lines 61-66): the
extent shrunk by a negative origin, then clamped to the level extent taken
from the clamped origin.  The clamped origin itself is max x 0. -/
def clipExt (W : ℕ) (x tw : ℤ) : ℤ :=
  if max x 0 + (if x < 0 then tw + x else tw) > (W : ℤ)
  then (W : ℤ) - max x 0
  else (if x < 0 then tw + x else tw)

/-- WSIReader._normalize (base.py lines 283-287): integer dtype pixels are
divided by 255 (becoming floating point), other dtypes pass unchanged. -/
def normalize_px (s : WSI) (b : Buf ℚ) : Buf ℚ :=
  if s.isInt then mapBuf (fun q => q / 255) b else b

/-- cv2.resize applied to a boolean mask as done in base.py: cast to uint8,
resize with the pixel kernel, cast back to bool (nonzero becomes true). -/
def resize_mask (interp : Buf ℚ → ℕ → ℕ → Buf ℚ) (m : Buf Bool) (w h : ℕ) :
    Buf Bool :=
  mapBuf (fun q => decide (q ≠ 0))
    (interp (mapBuf (fun b => if b then (1 : ℚ) else 0) m) w h)

/-- base.py lines 83-96: optional normalization followed by zero padding of
tile and mask to the caller-requested size.  x y tw th are the (possibly
downsample-adjusted) clipped origin and extent, x0 y0 tsw tsh the original
request. -/
def rr_pad (s : WSI) (x y tw th x0 y0 tsw tsh : ℤ) (normalize : Bool)
    (t : Buf ℚ) (m : Buf Bool) : Except RdErr (Buf ℚ × Buf Bool) :=
  let t1 := if normalize then normalize_px s t else t
  let top := y - y0
  let bottom := tsh - th + min y0 0
  let left := x - x0
  let right := tsw - tw + min x0 0
  match npPad t1 top bottom left right 0 with
  | none => .error .padNegative
  | some tp =>
    match npPad m top bottom left right false with
    | none => .error .padNegative
    | some mp => .ok (tp, mp)

/-- base.py lines 71-96: the post-fetch part of read_region.  When the region
was fetched from level 0 to synthesize a higher level, shrink it back by the
integer downsample (Python // raises on zero, cv2.resize raises on an empty
source or non-positive dsize), then normalize and pad. -/
def rr_post (s : WSI) (interp : Buf ℚ → ℕ → ℕ → Buf ℚ) (useDl0 : Bool)
    (ds x0 y0 tsw tsh x2 y2 tw2 th2 : ℤ) (normalize : Bool)
    (t : Buf ℚ) (m : Buf Bool) : Except RdErr (Buf ℚ × Buf Bool) :=
  if useDl0 then
    if ds = 0 then .error .zeroDivision
    else
      let tw3 := tw2.fdiv ds
      let th3 := th2.fdiv ds
      if t.h = 0 ∨ t.w = 0 ∨ tw3 ≤ 0 ∨ th3 ≤ 0 then .error .cvError
      else
        rr_pad s (x2.fdiv ds) (y2.fdiv ds) tw3 th3 x0 y0 tsw tsh normalize
          (interp t tw3.toNat th3.toNat)
          (resize_mask interp m tw3.toNat th3.toNat)
  else rr_pad s x2 y2 tw2 th2 x0 y0 tsw tsh normalize t m

/-- WSIReader.read_region (base.py lines 26-98) over the tifffile backend,
with the cv2.resize kernel abstracted as interp.  tile_size is taken as a
(width, height) pair; the scalar form of the Python signature is the pair
(ts, ts). -/
def read_region (s : WSI) (interp : Buf ℚ → ℕ → ℕ → Buf ℚ) (x_y : ℤ × ℤ)
    (level : ℕ) (tile_size : ℤ × ℤ) (normalize downsample_level_0 : Bool) :
    Except RdErr (Buf ℚ × Buf Bool) :=
  let useDl0 := downsample_level_0 && decide (0 < level)
  let ds : ℤ := pyRound ((levelW s 0 : ℚ) / (levelW s level : ℚ))
  let x1 := if useDl0 then x_y.1 * ds else x_y.1
  let y1 := if useDl0 then x_y.2 * ds else x_y.2
  let tw0 := if useDl0 then tile_size.1 * ds else tile_size.1
  let th0 := if useDl0 then tile_size.2 * ds else tile_size.2
  let fetchLevel := if useDl0 then 0 else level
  let x2 := max x1 0
  let y2 := max y1 0
  let tw2 := clipExt (levelW s fetchLevel) x1 tw0
  let th2 := clipExt (levelH s fetchLevel) y1 th0
  (tiff_read_region s x2.toNat y2.toNat fetchLevel tw2 th2).bind
    (fun tm => rr_post s interp useDl0 ds x_y.1 x_y.2 tile_size.1 tile_size.2
      x2 y2 tw2 th2 normalize tm.1 tm.2)

/-- The scan loop of get_best_level_for_downsample (base.py lines 177-181):
i is the absolute index of the head of the remaining list, n the level count. -/
def best_scan (d : ℚ) : List ℚ → ℕ → ℕ → ℕ
  | [], _, n => n - 1
  | x :: xs, i, n => if d < x then i - 1 else best_scan d xs (i + 1) n

/-- WSIReader.get_best_level_for_downsample (base.py lines 165-181). -/
def get_best_level_for_downsample (s : WSI) (d : ℚ) : ℕ :=
  if d < (level_downsamples s).getD 0 0 then 0
  else best_scan d ((level_downsamples s).drop 1) 1 (level_count s)

/-- The level chosen by the resampling branch of read_region_ds
(base.py lines 133-137). -/
def ds_level (s : WSI) (d : ℚ) (downsample_level_0 : Bool) : ℕ :=
  if downsample_level_0 then 0 else get_best_level_for_downsample s d

/-- The origin rescaled into the chosen level's frame (base.py lines 138-141). -/
def ds_x_y_level (s : WSI) (d : ℚ) (x_y : ℤ × ℤ) (level : ℕ) : ℤ × ℤ :=
  (pyRound ((x_y.1 : ℚ) * d / (level_downsamples s).getD level 0),
   pyRound ((x_y.2 : ℚ) * d / (level_downsamples s).getD level 0))

/-- The tile size rescaled into the chosen level's frame
(base.py lines 142-145). -/
def ds_tile_size_level (s : WSI) (d : ℚ) (ts : ℤ × ℤ) (level : ℕ) : ℤ × ℤ :=
  (pyRound ((ts.1 : ℚ) * d / (level_downsamples s).getD level 0),
   pyRound ((ts.2 : ℚ) * d / (level_downsamples s).getD level 0))

/-- WSIReader.read_region_ds (base.py lines 100-157). -/
def read_region_ds (s : WSI) (interp : Buf ℚ → ℕ → ℕ → Buf ℚ) (x_y : ℤ × ℤ)
    (d : ℚ) (tile_size : ℤ × ℤ) (normalize downsample_level_0 : Bool) :
    Except RdErr (Buf ℚ × Buf Bool) :=
  if d ≤ 0 then .error .invalidArg
  else
    let dl0 := if d = 1 then false else downsample_level_0
    let core :=
      if d ∈ level_downsamples s ∧ dl0 = false then
        read_region s interp x_y (get_best_level_for_downsample s d) tile_size
          false false
      else
        let level := ds_level s d dl0
        (read_region s interp (ds_x_y_level s d x_y level) level
            (ds_tile_size_level s d tile_size level) false dl0).bind
          (fun tm =>
            if tm.1.h = 0 ∨ tm.1.w = 0 ∨ tile_size.1 ≤ 0 ∨ tile_size.2 ≤ 0
            then .error .cvError
            else .ok (interp tm.1 tile_size.1.toNat tile_size.2.toNat,
                      resize_mask interp tm.2 tile_size.1.toNat tile_size.2.toNat))
    core.map (fun tm => (if normalize then normalize_px s tm.1 else tm.1, tm.2))

/-- WSIReader.get_dimensions_for_downsample (base.py lines 204-221).
list.index finds the first occurrence of an exactly matching downsample. -/
def get_dimensions_for_downsample (s : WSI) (d : ℚ) : Except RdErr (ℤ × ℤ) :=
  if d ≤ 0 then .error .invalidArg
  else if d ∈ level_downsamples s then
    let level := (level_downsamples s).findIdx (fun q => decide (q = d))
    .ok ((levelW s level : ℤ), (levelH s level : ℤ))
  else
    .ok (pyRound ((levelW s 0 : ℚ) / d), pyRound ((levelH s 0 : ℚ) / d))

/-- The uniform downsample factor computed by get_downsampled_slide
(base.py line 195): the minimum over both axes of level0_dim / requested_dim. -/
def downsample_factor (s : WSI) (dims : ℤ × ℤ) : ℚ :=
  min ((levelW s 0 : ℚ) / (dims.1 : ℚ)) ((levelH s 0 : ℚ) / (dims.2 : ℚ))

/-- WSIReader.get_downsampled_slide (base.py lines 183-202). -/
def get_downsampled_slide (s : WSI) (interp : Buf ℚ → ℕ → ℕ → Buf ℚ)
    (dims : ℤ × ℤ) (normalize : Bool) : Except RdErr (Buf ℚ × Buf Bool) :=
  let d := downsample_factor s dims
  (get_dimensions_for_downsample s d).bind
    (fun wh => read_region_ds s interp (0, 0) d wh normalize false)

/-- The tile of a successful read; a 0-by-0 buffer on error. -/
def okTile (r : Except RdErr (Buf ℚ × Buf Bool)) : Buf ℚ :=
  match r with
  | .ok tm => tm.1
  | .error _ => ⟨0, 0, fun _ _ => 0⟩

/-- The mask of a successful read; a 0-by-0 buffer on error. -/
def okMask (r : Except RdErr (Buf ℚ × Buf Bool)) : Buf Bool :=
  match r with
  | .ok tm => tm.2
  | .error _ => ⟨0, 0, fun _ _ => false⟩

/-- A concrete resampler with cv2.resize's shape behaviour, used to
instantiate the abstract kernel in witnesses. -/
def nearest_resize (b : Buf ℚ) (w h : ℕ) : Buf ℚ :=
  ⟨h, w, fun i j => b.data (i * b.h / h) (j * b.w / w)⟩

/-- A constant backing image, used in witnesses and counterexamples. -/
def constImg : ℕ → ℕ → ℕ → ℚ := fun _ _ _ => 0

/-- Axis ranges on which read_region's clipped extent stays non-negative, so
the tifffile backend is not handed a negative dimension. -/
def SafeAxis (W : ℕ) (x tw : ℤ) : Prop := 0 < tw ∧ -tw ≤ x ∧ x ≤ (W : ℤ)

/-- Well-formed slide metadata: at least one level, positive dimensions, and
per-axis non-increasing level dimensions. -/
def ValidDims (s : WSI) : Prop :=
  s.level_dimensions ≠ [] ∧
  (∀ p ∈ s.level_dimensions, 0 < p.1 ∧ 0 < p.2) ∧
  List.Chain' (fun p q => q.1 ≤ p.1 ∧ q.2 ≤ p.2) s.level_dimensions

/-- The three-level slide of the spec's concrete scenario. -/
def dims3 : List (ℕ × ℕ) := [(1000, 1000), (500, 500), (250, 250)]

/-- A slide with the scenario pyramid over an arbitrary backing image. -/
def slide3 (img : ℕ → ℕ → ℕ → ℚ) : WSI := ⟨dims3, img, true⟩

/-- A single-level 1000 by 1000 slide over an arbitrary backing image. -/
def slide1k (img : ℕ → ℕ → ℕ → ℚ) : WSI := ⟨[(1000, 1000)], img, true⟩

/-- A single-level 10000 by 8000 slide with a constant backing image. -/
def slideWide : WSI := ⟨[(10000, 8000)], constImg, true⟩

/-- A two-level slide whose second level is only one pixel smaller. -/
def slideNear : WSI := ⟨[(1000, 1000), (999, 999)], constImg, true⟩

/-! ### Arithmetic lemmas about pyRound -/

theorem pyRound_intCast (n : ℤ) : pyRound (n : ℚ) = n := by
  unfold pyRound
  rw [Int.fract_intCast, Int.floor_intCast]
  norm_num

theorem pyRound_mono {q r : ℚ} (h : q ≤ r) : pyRound q ≤ pyRound r := by
  rcases eq_or_lt_of_le (Int.floor_le_floor h) with hf | hf
  · have hfr : Int.fract q ≤ Int.fract r := by
      unfold Int.fract
      rw [hf]
      linarith
    unfold pyRound
    rw [hf]
    split_ifs <;> first | omega | linarith
  · have h1 : pyRound q ≤ ⌊q⌋ + 1 := by
      unfold pyRound
      split_ifs <;> omega
    have h2 : ⌊r⌋ ≤ pyRound r := by
      unfold pyRound
      split_ifs <;> omega
    omega

theorem le_pyRound {n : ℤ} {q : ℚ} (h : (n : ℚ) ≤ q) : n ≤ pyRound q := by
  have hm := pyRound_mono h
  rwa [pyRound_intCast] at hm

theorem pyRound_nonneg {q : ℚ} (h : 0 ≤ q) : 0 ≤ pyRound q :=
  le_pyRound (by exact_mod_cast h)

theorem pyRound_eq_floor {q : ℚ} (h : Int.fract q < 1/2) : pyRound q = ⌊q⌋ := by
  unfold pyRound
  rw [if_pos h]

/-! ### Geometry lemmas for the level-indexed read -/

theorem clipExt_spec {W : ℕ} {x tw : ℤ} (h1 : 0 < tw) (h2 : -tw ≤ x)
    (h3 : x ≤ (W : ℤ)) :
    0 ≤ clipExt W x tw ∧ max x 0 + clipExt W x tw ≤ (W : ℤ) ∧
    0 ≤ max x 0 - x ∧ 0 ≤ tw - clipExt W x tw + min x 0 ∧
    (max x 0 - x) + clipExt W x tw + (tw - clipExt W x tw + min x 0) = tw := by
  unfold clipExt
  split_ifs <;> omega

theorem tiff_ok {s : WSI} {x y level : ℕ} {tw th : ℤ} (htw : 0 ≤ tw)
    (hth : 0 ≤ th) :
    tiff_read_region s x y level tw th =
      .ok (sliceBuf s level x y
             (min (y + th.toNat) (levelH s level) - min y (levelH s level))
             (min (x + tw.toNat) (levelW s level) - min x (levelW s level)),
           onesMask th.toNat tw.toNat) := by
  unfold tiff_read_region
  rw [if_neg (by omega)]

theorem tiff_err {s : WSI} {x y level : ℕ} {tw th : ℤ} (h : tw < 0 ∨ th < 0) :
    tiff_read_region s x y level tw th = .error .negativeDims := by
  unfold tiff_read_region
  rw [if_pos h]

theorem normalize_px_h (s : WSI) (b : Buf ℚ) : (normalize_px s b).h = b.h := by
  unfold normalize_px
  split_ifs <;> rfl

theorem normalize_px_w (s : WSI) (b : Buf ℚ) : (normalize_px s b).w = b.w := by
  unfold normalize_px
  split_ifs <;> rfl

theorem rr_pad_eq {s : WSI} {x y tw th x0 y0 tsw tsh : ℤ} {n : Bool}
    {t : Buf ℚ} {m : Buf Bool}
    (htop : 0 ≤ y - y0) (hbot : 0 ≤ tsh - th + min y0 0)
    (hleft : 0 ≤ x - x0) (hright : 0 ≤ tsw - tw + min x0 0) :
    rr_pad s x y tw th x0 y0 tsw tsh n t m =
      .ok (padBuf (if n then normalize_px s t else t)
             (y - y0) (tsh - th + min y0 0) (x - x0) (tsw - tw + min x0 0) 0,
           padBuf m
             (y - y0) (tsh - th + min y0 0) (x - x0) (tsw - tw + min x0 0)
             false) := by
  have hc : ¬(y - y0 < 0 ∨ tsh - th + min y0 0 < 0 ∨ x - x0 < 0 ∨
      tsw - tw + min x0 0 < 0) := by omega
  simp only [rr_pad, npPad, if_neg hc]

theorem read_region_safe_eq {s : WSI} {interp : Buf ℚ → ℕ → ℕ → Buf ℚ}
    {x y tw th : ℤ} {level : ℕ} {n : Bool}
    (hx : SafeAxis (levelW s level) x tw) (hy : SafeAxis (levelH s level) y th) :
    read_region s interp (x, y) level (tw, th) n false =
      .ok (padBuf
             (if n then
                normalize_px s
                  (sliceBuf s level (max x 0).toNat (max y 0).toNat
                    (clipExt (levelH s level) y th).toNat
                    (clipExt (levelW s level) x tw).toNat)
              else
                sliceBuf s level (max x 0).toNat (max y 0).toNat
                  (clipExt (levelH s level) y th).toNat
                  (clipExt (levelW s level) x tw).toNat)
             (max y 0 - y) (th - clipExt (levelH s level) y th + min y 0)
             (max x 0 - x) (tw - clipExt (levelW s level) x tw + min x 0) 0,
           padBuf
             (onesMask (clipExt (levelH s level) y th).toNat
               (clipExt (levelW s level) x tw).toNat)
             (max y 0 - y) (th - clipExt (levelH s level) y th + min y 0)
             (max x 0 - x) (tw - clipExt (levelW s level) x tw + min x 0)
             false) := by
  obtain ⟨hx1, hx2, hx3⟩ := hx
  obtain ⟨hy1, hy2, hy3⟩ := hy
  obtain ⟨cx1, cx2, cx3, cx4, cx5⟩ := clipExt_spec hx1 hx2 hx3
  obtain ⟨cy1, cy2, cy3, cy4, cy5⟩ := clipExt_spec hy1 hy2 hy3
  have hslice :
      sliceBuf s level (max x 0).toNat (max y 0).toNat
        (min ((max y 0).toNat + (clipExt (levelH s level) y th).toNat)
            (levelH s level) - min (max y 0).toNat (levelH s level))
        (min ((max x 0).toNat + (clipExt (levelW s level) x tw).toNat)
            (levelW s level) - min (max x 0).toNat (levelW s level)) =
      sliceBuf s level (max x 0).toNat (max y 0).toNat
        (clipExt (levelH s level) y th).toNat
        (clipExt (levelW s level) x tw).toNat := by
    unfold sliceBuf
    congr 1 <;> omega
  simp only [read_region, Bool.and_self, Bool.false_and, Bool.and_false,
    if_false, Bool.false_eq_true, tiff_ok cx1 cy1, hslice, Except.bind,
    rr_post]
  rw [rr_pad_eq cy3 cy4 cx3 cx4]

theorem read_region_shapes {s : WSI} {interp : Buf ℚ → ℕ → ℕ → Buf ℚ}
    {x y tw th : ℤ} {level : ℕ} {n : Bool}
    (hx : SafeAxis (levelW s level) x tw) (hy : SafeAxis (levelH s level) y th) :
    (read_region s interp (x, y) level (tw, th) n false).isOk = true ∧
    (okTile (read_region s interp (x, y) level (tw, th) n false)).h = th.toNat ∧
    (okTile (read_region s interp (x, y) level (tw, th) n false)).w = tw.toNat ∧
    (okMask (read_region s interp (x, y) level (tw, th) n false)).h = th.toNat ∧
    (okMask (read_region s interp (x, y) level (tw, th) n false)).w = tw.toNat := by
  obtain ⟨hx1, hx2, hx3⟩ := hx
  obtain ⟨hy1, hy2, hy3⟩ := hy
  obtain ⟨cx1, cx2, cx3, cx4, cx5⟩ := clipExt_spec hx1 hx2 hx3
  obtain ⟨cy1, cy2, cy3, cy4, cy5⟩ := clipExt_spec hy1 hy2 hy3
  rw [read_region_safe_eq ⟨hx1, hx2, hx3⟩ ⟨hy1, hy2, hy3⟩]
  refine ⟨rfl, ?_, ?_, ?_, ?_⟩ <;>
    simp only [okTile, okMask, padBuf] <;>
    cases n <;>
    simp only [if_true, if_false, Bool.false_eq_true, Bool.true_eq_false,
      normalize_px_h, normalize_px_w, sliceBuf, onesMask] <;>
    omega

theorem read_region_far_err {s : WSI} {interp : Buf ℚ → ℕ → ℕ → Buf ℚ}
    {x y tw th : ℤ} {level : ℕ} {n : Bool}
    (hfar : (levelW s level : ℤ) < x) (htw : 0 < tw) :
    read_region s interp (x, y) level (tw, th) n false =
      .error .negativeDims := by
  have hneg : clipExt (levelW s level) x tw < 0 := by
    unfold clipExt
    split_ifs <;> omega
  simp only [read_region, Bool.false_and, Bool.false_eq_true, if_false,
    tiff_err (Or.inl hneg), Except.bind]

/-! ### Lemmas about the level-selector scan -/

theorem best_scan_le {d : ℚ} : ∀ (l : List ℚ) (i n : ℕ), l.length + i = n →
    best_scan d l i n ≤ n - 1
  | [], i, n, h => by
      unfold best_scan
      omega
  | x :: xs, i, n, h => by
      rw [List.length_cons] at h
      unfold best_scan
      split_ifs
      · omega
      · exact best_scan_le xs (i + 1) n (by omega)

theorem best_scan_ge {d : ℚ} : ∀ (l : List ℚ) (i n : ℕ), l.length + i = n →
    i - 1 ≤ best_scan d l i n
  | [], i, n, h => by
      unfold best_scan
      omega
  | x :: xs, i, n, h => by
      rw [List.length_cons] at h
      unfold best_scan
      split_ifs
      · omega
      · have := best_scan_ge (d := d) xs (i + 1) n (by omega)
        omega

theorem best_scan_mono {d d' : ℚ} (hdd : d ≤ d') : ∀ (l : List ℚ) (i n : ℕ),
    l.length + i = n → best_scan d l i n ≤ best_scan d' l i n
  | [], i, n, h => le_refl _
  | x :: xs, i, n, h => by
      rw [List.length_cons] at h
      unfold best_scan
      by_cases hd' : d' < x
      · rw [if_pos hd', if_pos (lt_of_le_of_lt hdd hd')]
      · rw [if_neg hd']
        split_ifs
        · have := best_scan_ge (d := d') xs (i + 1) n (by omega)
          omega
        · exact best_scan_mono hdd xs (i + 1) n (by omega)

theorem best_scan_first_hit {d : ℚ} : ∀ (pre : List ℚ) (x : ℚ) (suf : List ℚ)
    (i n : ℕ), (∀ y ∈ pre, ¬ d < y) → d < x →
    best_scan d (pre ++ x :: suf) i n = i + pre.length - 1
  | [], x, suf, i, n, hpre, hx => by
      rw [List.nil_append]
      unfold best_scan
      rw [if_pos hx]
      simp
  | y :: pre, x, suf, i, n, hpre, hx => by
      rw [List.cons_append]
      unfold best_scan
      rw [if_neg (hpre y (List.mem_cons_self _ _))]
      rw [best_scan_first_hit pre x suf (i + 1) n
        (fun z hz => hpre z (List.mem_cons_of_mem y hz)) hx]
      rw [List.length_cons]
      omega

theorem best_scan_none {d : ℚ} : ∀ (l : List ℚ) (i n : ℕ),
    (∀ y ∈ l, ¬ d < y) → best_scan d l i n = n - 1
  | [], _, _, _ => rfl
  | x :: xs, i, n, hl => by
      unfold best_scan
      rw [if_neg (hl x (List.mem_cons_self _ _))]
      exact best_scan_none xs (i + 1) n (fun z hz => hl z (List.mem_cons_of_mem x hz))

theorem level_downsamples_length (s : WSI) :
    (level_downsamples s).length = level_count s := by
  unfold level_downsamples level_count
  exact List.length_map _ _

theorem best_lt_count {s : WSI} (hne : s.level_dimensions ≠ []) (d : ℚ) :
    get_best_level_for_downsample s d < level_count s := by
  have hlen := level_downsamples_length s
  have hpos : 1 ≤ level_count s := by
    unfold level_count
    exact List.length_pos.2 hne
  unfold get_best_level_for_downsample
  split_ifs
  · omega
  · have hle := best_scan_le (d := d) ((level_downsamples s).drop 1) 1
      (level_count s) (by rw [List.length_drop]; omega)
    omega

theorem best_mono {s : WSI} (hne : s.level_dimensions ≠ []) {d d' : ℚ}
    (h : d ≤ d') :
    get_best_level_for_downsample s d ≤ get_best_level_for_downsample s d' := by
  have hlen := level_downsamples_length s
  have hpos : 1 ≤ level_count s := by
    unfold level_count
    exact List.length_pos.2 hne
  unfold get_best_level_for_downsample
  split_ifs with h1 h2 h2
  · exact le_refl 0
  · exact Nat.zero_le _
  · exact absurd (lt_of_le_of_lt h h2) h1
  · exact best_scan_mono h ((level_downsamples s).drop 1) 1 (level_count s)
      (by rw [List.length_drop]; omega)

theorem best_scan_exact (L : List ℚ) (hp : L.Pairwise (· < ·)) (i : ℕ)
    (hiL : i < L.length) :
    best_scan (L[i]) (L.drop 1) 1 L.length = i := by
  have hidx := List.pairwise_iff_getElem.1 hp
  by_cases hlast : i + 1 < L.length
  · have hpre_len : ((L.drop 1).take i).length = i := by
      rw [List.length_take, List.length_drop]
      omega
    have h1 : (L.drop 1).drop i = L.drop (i + 1) := by
      rw [List.drop_drop, Nat.add_comm]
    have h2 : L.drop (i + 1) = L[i + 1] :: L.drop (i + 1 + 1) :=
      List.drop_eq_getElem_cons hlast
    have hsplit : L.drop 1 = (L.drop 1).take i ++ (L[i + 1] :: L.drop (i + 1 + 1)) := by
      rw [← h2, ← h1, List.take_append_drop]
    have hpre : ∀ y ∈ (L.drop 1).take i, ¬ L[i] < y := by
      intro y hy
      obtain ⟨k, hk, hky⟩ := List.mem_iff_getElem.1 hy
      rw [hpre_len] at hk
      have hk1 : k < (L.drop 1).length := by
        rw [List.length_drop]
        omega
      have hk2 : 1 + k < L.length := by omega
      have hk3 : k < ((L.drop 1).take i).length := by
        rw [hpre_len]
        omega
      have hteq : ((L.drop 1).take i)[k] = (L.drop 1)[k] := by
        rw [List.getElem_take]
      have hdeq : (L.drop 1)[k] = L[1 + k] := by
        rw [List.getElem_drop]
      rcases Nat.lt_or_ge (1 + k) i with hki | hki
      · have hlt := hidx (1 + k) i (by omega) hiL hki
        rw [← hky, hteq, hdeq]
        exact not_lt.2 (le_of_lt hlt)
      · have hkeq : 1 + k = i := by omega
        rw [← hky, hteq, hdeq]
        simp only [hkeq]
        exact lt_irrefl _
    have hx : L[i] < L[i + 1] := hidx i (i + 1) hiL hlast (by omega)
    rw [hsplit, best_scan_first_hit _ _ _ 1 L.length hpre hx, hpre_len]
    omega
  · have hnone : ∀ y ∈ L.drop 1, ¬ L[i] < y := by
      intro y hy
      obtain ⟨k, hk, hky⟩ := List.mem_iff_getElem.1 hy
      have hk1 : 1 + k < L.length := by
        rw [List.length_drop] at hk
        omega
      have hdeq : (L.drop 1)[k] = L[1 + k] := by
        rw [List.getElem_drop]
      rcases Nat.lt_or_ge (1 + k) i with hki | hki
      · have hlt := hidx (1 + k) i hk1 hiL hki
        rw [← hky, hdeq]
        exact not_lt.2 (le_of_lt hlt)
      · have hkeq : 1 + k = i := by omega
        rw [← hky, hdeq]
        simp only [hkeq]
        exact lt_irrefl _
    rw [best_scan_none _ 1 _ hnone]
    omega

theorem best_exact {s : WSI}
    (hchain : List.Chain' (· < ·) (level_downsamples s))
    {i : ℕ} (hi : i < level_count s) :
    get_best_level_for_downsample s ((level_downsamples s).getD i 0) = i := by
  have hlen : (level_downsamples s).length = level_count s :=
    level_downsamples_length s
  have hp : (level_downsamples s).Pairwise (· < ·) :=
    List.chain'_iff_pairwise.1 hchain
  have hiL : i < (level_downsamples s).length := by omega
  have hidx := List.pairwise_iff_getElem.1 hp
  have hd : (level_downsamples s).getD i 0 = (level_downsamples s)[i] :=
    List.getD_eq_getElem _ 0 hiL
  have hguard : ¬ ((level_downsamples s)[i] < (level_downsamples s).getD 0 0) := by
    have h0 : 0 < (level_downsamples s).length := by omega
    rw [List.getD_eq_getElem _ 0 h0]
    rcases Nat.eq_zero_or_pos i with h | h
    · subst h
      exact lt_irrefl _
    · exact not_lt.2 (le_of_lt (hidx 0 i h0 hiL h))
  unfold get_best_level_for_downsample
  rw [hd, if_neg hguard, ← hlen]
  exact best_scan_exact _ hp i hiL

/-! ### Normalization commutes with padding -/

theorem padBuf_map_zero {f : ℚ → ℚ} (hf : f 0 = 0) (b : Buf ℚ)
    (top bottom left right : ℤ) :
    padBuf (mapBuf f b) top bottom left right 0 =
      mapBuf f (padBuf b top bottom left right 0) := by
  simp only [padBuf, mapBuf]
  congr 1
  funext i j
  by_cases hc : top.toNat ≤ i ∧ i < top.toNat + b.h ∧ left.toNat ≤ j ∧
      j < left.toNat + b.w
  · rw [if_pos hc, if_pos hc]
  · rw [if_neg hc, if_neg hc, hf]

theorem except_bind_map {ε α β γ : Type} (r : Except ε α)
    (f : α → Except ε γ) (g : α → Except ε β) (nm : β → γ)
    (h : ∀ a, f a = (g a).map nm) : r.bind f = (r.bind g).map nm := by
  cases r
  · rfl
  · exact h _

theorem rr_pad_normalize (s : WSI) (x y tw th x0 y0 tsw tsh : ℤ) (t : Buf ℚ)
    (m : Buf Bool) :
    rr_pad s x y tw th x0 y0 tsw tsh true t m =
      (rr_pad s x y tw th x0 y0 tsw tsh false t m).map
        (fun tm => (normalize_px s tm.1, tm.2)) := by
  have hkey : ∀ top bottom left right : ℤ,
      padBuf (normalize_px s t) top bottom left right 0 =
        normalize_px s (padBuf t top bottom left right 0) := by
    intro top bottom left right
    unfold normalize_px
    split_ifs
    · exact padBuf_map_zero (by norm_num) t top bottom left right
    · rfl
  simp only [rr_pad, npPad, if_true, eq_self_iff_true]
  by_cases hc : y - y0 < 0 ∨ tsh - th + min y0 0 < 0 ∨ x - x0 < 0 ∨
      tsw - tw + min x0 0 < 0
  · simp only [if_pos hc]
    rfl
  · simp only [if_neg hc, hkey]
    rfl

theorem rr_post_normalize (s : WSI) (interp : Buf ℚ → ℕ → ℕ → Buf ℚ)
    (useDl0 : Bool) (ds x0 y0 tsw tsh x2 y2 tw2 th2 : ℤ) (t : Buf ℚ)
    (m : Buf Bool) :
    rr_post s interp useDl0 ds x0 y0 tsw tsh x2 y2 tw2 th2 true t m =
      (rr_post s interp useDl0 ds x0 y0 tsw tsh x2 y2 tw2 th2 false t m).map
        (fun tm => (normalize_px s tm.1, tm.2)) := by
  simp only [rr_post]
  split_ifs <;> first | rfl | apply rr_pad_normalize

theorem read_region_normalize (s : WSI) (interp : Buf ℚ → ℕ → ℕ → Buf ℚ)
    (x_y : ℤ × ℤ) (level : ℕ) (ts : ℤ × ℤ) (dl0 : Bool) :
    read_region s interp x_y level ts true dl0 =
      (read_region s interp x_y level ts false dl0).map
        (fun tm => (normalize_px s tm.1, tm.2)) := by
  simp only [read_region]
  apply except_bind_map
  intro tm
  apply rr_post_normalize

/-! ### No path other than the guard produces the invalid-argument error -/

theorem rr_pad_cases (s : WSI) (x y tw th x0 y0 tsw tsh : ℤ) (n : Bool)
    (t : Buf ℚ) (m : Buf Bool) :
    rr_pad s x y tw th x0 y0 tsw tsh n t m = .error .padNegative ∨
    ∃ tp mp, rr_pad s x y tw th x0 y0 tsw tsh n t m = .ok (tp, mp) := by
  simp only [rr_pad]
  cases h1 : npPad (if n = true then normalize_px s t else t) (y - y0)
      (tsh - th + min y0 0) (x - x0) (tsw - tw + min x0 0) 0 with
  | none => exact Or.inl rfl
  | some tp =>
    cases h2 : npPad m (y - y0) (tsh - th + min y0 0) (x - x0)
        (tsw - tw + min x0 0) false with
    | none => exact Or.inl rfl
    | some mp => exact Or.inr ⟨tp, mp, rfl⟩

theorem rr_pad_ne_invalidArg (s : WSI) (x y tw th x0 y0 tsw tsh : ℤ) (n : Bool)
    (t : Buf ℚ) (m : Buf Bool) :
    rr_pad s x y tw th x0 y0 tsw tsh n t m ≠ .error .invalidArg := by
  rcases rr_pad_cases s x y tw th x0 y0 tsw tsh n t m with h | ⟨tp, mp, h⟩ <;>
    rw [h] <;> simp

theorem rr_post_ne_invalidArg (s : WSI) (interp : Buf ℚ → ℕ → ℕ → Buf ℚ)
    (useDl0 : Bool) (ds x0 y0 tsw tsh x2 y2 tw2 th2 : ℤ) (n : Bool) (t : Buf ℚ)
    (m : Buf Bool) :
    rr_post s interp useDl0 ds x0 y0 tsw tsh x2 y2 tw2 th2 n t m ≠
      .error .invalidArg := by
  simp only [rr_post]
  split_ifs
  · simp
  · simp
  · apply rr_pad_ne_invalidArg
  · apply rr_pad_ne_invalidArg

theorem except_bind_ne {ε α β : Type} (r : Except ε α) (f : α → Except ε β)
    (e : ε) (hr : r ≠ .error e) (hf : ∀ a, f a ≠ .error e) :
    r.bind f ≠ .error e := by
  cases r with
  | error e2 =>
    intro h
    apply hr
    have h2 : (Except.error e2 : Except ε β) = .error e := h
    injection h2 with he
    rw [he]
  | ok a => exact hf a

theorem read_region_ne_invalidArg (s : WSI) (interp : Buf ℚ → ℕ → ℕ → Buf ℚ)
    (x_y : ℤ × ℤ) (level : ℕ) (ts : ℤ × ℤ) (n dl0 : Bool) :
    read_region s interp x_y level ts n dl0 ≠ .error .invalidArg := by
  simp only [read_region]
  apply except_bind_ne
  · unfold tiff_read_region
    split_ifs <;> simp
  · intro a
    apply rr_post_ne_invalidArg

/-! ### Branch analysis of the downsample-indexed read -/

theorem read_region_ds_exact_eq {s : WSI} {interp : Buf ℚ → ℕ → ℕ → Buf ℚ}
    {x_y : ℤ × ℤ} {d : ℚ} {ts : ℤ × ℤ} {n : Bool} (hd : ¬ d ≤ 0)
    (hmem : d ∈ level_downsamples s) :
    read_region_ds s interp x_y d ts n false =
      (read_region s interp x_y (get_best_level_for_downsample s d) ts
          false false).map
        (fun tm => (if n then normalize_px s tm.1 else tm.1, tm.2)) := by
  simp only [read_region_ds, if_neg hd, ite_self]
  rw [if_pos (show _ ∧ _ from ⟨hmem, by simp⟩)]

theorem read_region_ds_else_eq {s : WSI} {interp : Buf ℚ → ℕ → ℕ → Buf ℚ}
    {x_y : ℤ × ℤ} {d : ℚ} {ts : ℤ × ℤ} {n : Bool} (hd : ¬ d ≤ 0)
    (hmem : d ∉ level_downsamples s) :
    read_region_ds s interp x_y d ts n false =
      ((read_region s interp
          (ds_x_y_level s d x_y (get_best_level_for_downsample s d))
          (get_best_level_for_downsample s d)
          (ds_tile_size_level s d ts (get_best_level_for_downsample s d))
          false false).bind
        (fun tm =>
          if tm.1.h = 0 ∨ tm.1.w = 0 ∨ ts.1 ≤ 0 ∨ ts.2 ≤ 0
          then .error .cvError
          else .ok (interp tm.1 ts.1.toNat ts.2.toNat,
                    resize_mask interp tm.2 ts.1.toNat ts.2.toNat))).map
        (fun tm => (if n then normalize_px s tm.1 else tm.1, tm.2)) := by
  simp only [read_region_ds, if_neg hd, ite_self, ds_level, Bool.false_eq_true,
    if_false]
  rw [if_neg (fun hand => hmem hand.1)]

theorem except_map_ne {ε α β : Type} (r : Except ε α) (f : α → β) (e : ε)
    (hr : r ≠ .error e) : r.map f ≠ .error e := by
  cases r with
  | error e2 =>
    intro h
    apply hr
    have h2 : (Except.error e2 : Except ε β) = .error e := h
    injection h2 with he
    rw [he]
  | ok a =>
    intro h
    cases h

theorem cv_bind_ne_invalidArg (interp : Buf ℚ → ℕ → ℕ → Buf ℚ) (ts : ℤ × ℤ)
    (r : Except RdErr (Buf ℚ × Buf Bool)) (hr : r ≠ .error .invalidArg) :
    (r.bind (fun tm =>
        if tm.1.h = 0 ∨ tm.1.w = 0 ∨ ts.1 ≤ 0 ∨ ts.2 ≤ 0
        then Except.error RdErr.cvError
        else .ok (interp tm.1 ts.1.toNat ts.2.toNat,
                  resize_mask interp tm.2 ts.1.toNat ts.2.toNat))) ≠
      .error .invalidArg := by
  apply except_bind_ne _ _ _ hr
  intro a
  split_ifs <;> simp

theorem read_region_ds_invalidArg_iff (s : WSI)
    (interp : Buf ℚ → ℕ → ℕ → Buf ℚ) (x_y : ℤ × ℤ) (d : ℚ) (ts : ℤ × ℤ)
    (n dl0 : Bool) :
    read_region_ds s interp x_y d ts n dl0 = .error .invalidArg ↔ d ≤ 0 := by
  constructor
  · intro h
    by_contra hd
    revert h
    simp only [read_region_ds, if_neg hd]
    apply except_map_ne
    split_ifs
    all_goals
      first
      | apply read_region_ne_invalidArg
      | exact cv_bind_ne_invalidArg _ _ _
          (read_region_ne_invalidArg _ _ _ _ _ _ _)
  · intro hd
    simp only [read_region_ds, if_pos hd]

theorem get_dimensions_for_downsample_invalidArg_iff (s : WSI) (d : ℚ) :
    get_dimensions_for_downsample s d = .error .invalidArg ↔ d ≤ 0 := by
  constructor
  · intro h
    by_contra hd
    revert h
    simp only [get_dimensions_for_downsample, if_neg hd]
    split_ifs <;> simp
  · intro hd
    simp only [get_dimensions_for_downsample, if_pos hd]

/-! ### Derived downsample list -/

theorem pyRound_eq_int {q : ℚ} {n : ℤ} (h : q = (n : ℚ)) : pyRound q = n := by
  rw [h, pyRound_intCast]

theorem level_downsamples_first {s : WSI} (hne : s.level_dimensions ≠ [])
    (hpos : ∀ p ∈ s.level_dimensions, 0 < p.1 ∧ 0 < p.2) :
    (level_downsamples s).getD 0 0 = 1 := by
  obtain ⟨p, rest, hcons⟩ := List.exists_cons_of_ne_nil hne
  have hw : 0 < p.1 := (hpos p (hcons ▸ List.mem_cons_self _ _)).1
  unfold level_downsamples levelW
  rw [hcons]
  simp only [List.map_cons, List.getD_cons_zero]
  have hq : ((p.1 : ℕ) : ℚ) / ((p.1 : ℕ) : ℚ) = ((1 : ℤ) : ℚ) := by
    rw [div_self (by exact_mod_cast hw.ne')]
    norm_num
  rw [pyRound_eq_int hq]
  norm_num

theorem chain_downsamples (w0 : ℕ) : ∀ (l : List (ℕ × ℕ)),
    (∀ p ∈ l, 0 < p.1) →
    List.Chain' (fun p q : ℕ × ℕ => q.1 ≤ p.1 ∧ q.2 ≤ p.2) l →
    List.Chain' (· ≤ ·)
      (l.map (fun p => ((pyRound ((w0 : ℚ) / (p.1 : ℚ))) : ℚ)))
  | [], _, _ => by simp
  | [p], _, _ => by simp
  | p :: q :: l, hpos, hch => by
      rw [List.map_cons, List.map_cons, List.chain'_cons]
      rw [List.chain'_cons] at hch
      constructor
      · have hq1 : 0 < q.1 := hpos q (List.mem_cons_of_mem p (List.mem_cons_self _ _))
        have hdiv : (w0 : ℚ) / (p.1 : ℚ) ≤ (w0 : ℚ) / (q.1 : ℚ) :=
          div_le_div_of_nonneg_left (by positivity) (by exact_mod_cast hq1)
            (by exact_mod_cast hch.1.1)
        exact_mod_cast pyRound_mono hdiv
      · exact chain_downsamples w0 (q :: l)
          (fun r hr => hpos r (List.mem_cons_of_mem p hr)) hch.2

theorem level_downsamples_chain {s : WSI} (hv : ValidDims s) :
    List.Chain' (· ≤ ·) (level_downsamples s) := by
  obtain ⟨hne, hpos, hchain⟩ := hv
  unfold level_downsamples
  exact chain_downsamples (levelW s 0) s.level_dimensions
    (fun p hp => (hpos p hp).1) hchain

/-! ### Destructuring successful Except values -/

theorem except_map_ok {ε α β : Type} {r : Except ε α} {f : α → β} {b : β}
    (h : r.map f = .ok b) : ∃ a, r = .ok a ∧ b = f a := by
  cases r with
  | error e => cases h
  | ok a =>
    injection h with h2
    exact ⟨a, rfl, h2.symm⟩

theorem except_bind_ok {ε α β : Type} {r : Except ε α} {f : α → Except ε β}
    {b : β} (h : r.bind f = .ok b) : ∃ a, r = .ok a ∧ f a = .ok b := by
  cases r with
  | error e => cases h
  | ok a => exact ⟨a, rfl, h⟩

/-! ### Concrete evaluations on the scenario slides -/

theorem level_downsamples_slide3 (img : ℕ → ℕ → ℕ → ℚ) :
    level_downsamples (slide3 img) = [1, 2, 4] := by
  unfold level_downsamples levelW slide3 dims3
  simp only [List.map_cons, List.map_nil, List.getD_cons_zero]
  have h1 : pyRound (((1000 : ℕ) : ℚ) / ((1000 : ℕ) : ℚ)) = (1 : ℤ) :=
    pyRound_eq_int (by norm_num)
  have h2 : pyRound (((1000 : ℕ) : ℚ) / ((500 : ℕ) : ℚ)) = (2 : ℤ) :=
    pyRound_eq_int (by norm_num)
  have h3 : pyRound (((1000 : ℕ) : ℚ) / ((250 : ℕ) : ℚ)) = (4 : ℤ) :=
    pyRound_eq_int (by norm_num)
  rw [h1, h2, h3]
  norm_num

theorem best_slide3 (img : ℕ → ℕ → ℕ → ℚ) :
    get_best_level_for_downsample (slide3 img) 3 = 1 := by
  unfold get_best_level_for_downsample
  rw [level_downsamples_slide3]
  have hg : ¬ ((3 : ℚ) < [(1 : ℚ), 2, 4].getD 0 0) := by norm_num
  rw [if_neg hg]
  show best_scan 3 [2, 4] 1 (level_count (slide3 img)) = 1
  unfold best_scan
  rw [if_neg (by norm_num)]
  unfold best_scan
  rw [if_pos (by norm_num)]

theorem mem_slide3 (img : ℕ → ℕ → ℕ → ℚ) :
    (3 : ℚ) ∉ level_downsamples (slide3 img) := by
  rw [level_downsamples_slide3]
  norm_num

theorem ds_tile_size_slide3 (img : ℕ → ℕ → ℕ → ℚ) :
    ds_tile_size_level (slide3 img) 3 (100, 100) 1 = (150, 150) := by
  unfold ds_tile_size_level
  rw [level_downsamples_slide3]
  have h : (((100 : ℤ) : ℚ)) * 3 / [(1 : ℚ), 2, 4].getD 1 0 = ((150 : ℤ) : ℚ) := by
    norm_num
  rw [h, pyRound_intCast]

theorem ds_x_y_slide3 (img : ℕ → ℕ → ℕ → ℚ) :
    ds_x_y_level (slide3 img) 3 (0, 0) 1 = (0, 0) := by
  unfold ds_x_y_level
  rw [level_downsamples_slide3]
  have h : (((0 : ℤ) : ℚ)) * 3 / [(1 : ℚ), 2, 4].getD 1 0 = ((0 : ℤ) : ℚ) := by
    norm_num
  rw [h, pyRound_intCast]

/-! ### Successful downsample-indexed reads have the requested shape -/

theorem read_region_safe_ok {s : WSI} {interp : Buf ℚ → ℕ → ℕ → Buf ℚ}
    {x y tw th : ℤ} {level : ℕ} {n : Bool}
    (hx : SafeAxis (levelW s level) x tw) (hy : SafeAxis (levelH s level) y th) :
    ∃ t m, read_region s interp (x, y) level (tw, th) n false = .ok (t, m) ∧
      t.h = th.toNat ∧ t.w = tw.toNat ∧ m.h = th.toNat ∧ m.w = tw.toNat := by
  obtain ⟨hx1, hx2, hx3⟩ := hx
  obtain ⟨hy1, hy2, hy3⟩ := hy
  obtain ⟨cx1, cx2, cx3, cx4, cx5⟩ := clipExt_spec hx1 hx2 hx3
  obtain ⟨cy1, cy2, cy3, cy4, cy5⟩ := clipExt_spec hy1 hy2 hy3
  rw [read_region_safe_eq ⟨hx1, hx2, hx3⟩ ⟨hy1, hy2, hy3⟩]
  refine ⟨_, _, rfl, ?_, ?_, ?_, ?_⟩ <;>
    simp only [padBuf] <;>
    cases n <;>
    simp only [if_true, if_false, Bool.false_eq_true, Bool.true_eq_false,
      normalize_px_h, normalize_px_w, sliceBuf, onesMask] <;>
    omega

theorem mapBuf_h {α β : Type} (f : α → β) (b : Buf α) : (mapBuf f b).h = b.h :=
  rfl

theorem mapBuf_w {α β : Type} (f : α → β) (b : Buf α) : (mapBuf f b).w = b.w :=
  rfl

theorem ds_else_ok {s : WSI} {interp : Buf ℚ → ℕ → ℕ → Buf ℚ}
    (Hs : ∀ b w h, (interp b w h).h = h ∧ (interp b w h).w = w)
    {x_y ts : ℤ × ℤ} {d : ℚ} {n : Bool}
    (hd : ¬ d ≤ 0) (hmem : d ∉ level_downsamples s)
    (hts1 : 0 < ts.1) (hts2 : 0 < ts.2)
    (hx : SafeAxis (levelW s (get_best_level_for_downsample s d))
      (ds_x_y_level s d x_y (get_best_level_for_downsample s d)).1
      (ds_tile_size_level s d ts (get_best_level_for_downsample s d)).1)
    (hy : SafeAxis (levelH s (get_best_level_for_downsample s d))
      (ds_x_y_level s d x_y (get_best_level_for_downsample s d)).2
      (ds_tile_size_level s d ts (get_best_level_for_downsample s d)).2) :
    ∃ t m, read_region_ds s interp x_y d ts n false = .ok (t, m) ∧
      t.h = ts.2.toNat ∧ t.w = ts.1.toNat ∧ m.h = ts.2.toNat ∧
      m.w = ts.1.toNat := by
  rcases hxy : ds_x_y_level s d x_y (get_best_level_for_downsample s d)
    with ⟨xl, yl⟩
  rcases hts : ds_tile_size_level s d ts (get_best_level_for_downsample s d)
    with ⟨twl, thl⟩
  rw [hxy, hts] at hx hy
  obtain ⟨t0, m0, hrr, ht0h, ht0w, hm0h, hm0w⟩ :=
    @read_region_safe_ok s interp xl yl twl thl
      (get_best_level_for_downsample s d) false hx hy
  rw [read_region_ds_else_eq hd hmem, hxy, hts, hrr]
  have hne : ¬(t0.h = 0 ∨ t0.w = 0 ∨ ts.1 ≤ 0 ∨ ts.2 ≤ 0) := by
    rw [ht0h, ht0w]
    push_neg
    refine ⟨?_, ?_, by omega, by omega⟩
    · have := hy.1
      omega
    · have := hx.1
      omega
  simp only [Except.bind, Except.map, if_neg hne]
  refine ⟨_, _, rfl, ?_, ?_, ?_, ?_⟩
  · cases n
    · simp only [Bool.false_eq_true, if_false]
      exact (Hs t0 ts.1.toNat ts.2.toNat).1
    · simp only [if_true]
      rw [normalize_px_h]
      exact (Hs t0 ts.1.toNat ts.2.toNat).1
  · cases n
    · simp only [Bool.false_eq_true, if_false]
      exact (Hs t0 ts.1.toNat ts.2.toNat).2
    · simp only [if_true]
      rw [normalize_px_w]
      exact (Hs t0 ts.1.toNat ts.2.toNat).2
  · simp only [resize_mask, mapBuf_h]
    exact (Hs _ ts.1.toNat ts.2.toNat).1
  · simp only [resize_mask, mapBuf_w]
    exact (Hs _ ts.1.toNat ts.2.toNat).2

theorem ds_exact_ok {s : WSI} {interp : Buf ℚ → ℕ → ℕ → Buf ℚ}
    {x_y ts : ℤ × ℤ} {d : ℚ} {n : Bool}
    (hd : ¬ d ≤ 0) (hmem : d ∈ level_downsamples s)
    (hx : SafeAxis (levelW s (get_best_level_for_downsample s d)) x_y.1 ts.1)
    (hy : SafeAxis (levelH s (get_best_level_for_downsample s d)) x_y.2 ts.2) :
    ∃ t m, read_region_ds s interp x_y d ts n false = .ok (t, m) ∧
      t.h = ts.2.toNat ∧ t.w = ts.1.toNat ∧ m.h = ts.2.toNat ∧
      m.w = ts.1.toNat := by
  obtain ⟨x, y⟩ := x_y
  obtain ⟨tw, th⟩ := ts
  obtain ⟨t0, m0, hrr, h1, h2, h3, h4⟩ :=
    @read_region_safe_ok s interp x y tw th
      (get_best_level_for_downsample s d) false hx hy
  rw [read_region_ds_exact_eq hd hmem, hrr]
  simp only [Except.map]
  refine ⟨_, _, rfl, ?_, ?_, h3, h4⟩
  · cases n
    · simpa using h1
    · simp only [if_true]
      rw [normalize_px_h]
      exact h1
  · cases n
    · simpa using h2
    · simp only [if_true]
      rw [normalize_px_w]
      exact h2

theorem best_guard {s : WSI} {d : ℚ}
    (h : d < (level_downsamples s).getD 0 0) :
    get_best_level_for_downsample s d = 0 := by
  unfold get_best_level_for_downsample
  rw [if_pos h]

theorem validDims_level0_pos {s : WSI} (hv : ValidDims s) :
    0 < levelW s 0 ∧ 0 < levelH s 0 := by
  obtain ⟨hne, hpos, _⟩ := hv
  obtain ⟨p, rest, hcons⟩ := List.exists_cons_of_ne_nil hne
  have := hpos p (hcons ▸ List.mem_cons_self _ _)
  unfold levelW levelH
  rw [hcons]
  simpa using this

theorem get_dims_else_eq {s : WSI} {d : ℚ} (hd : ¬ d ≤ 0)
    (hmem : d ∉ level_downsamples s) :
    get_dimensions_for_downsample s d =
      .ok (pyRound ((levelW s 0 : ℚ) / d), pyRound ((levelH s 0 : ℚ) / d)) := by
  simp only [get_dimensions_for_downsample, if_neg hd, if_neg hmem]

/-! ### Witness-level helper facts -/

theorem nearest_resize_shape : ∀ (b : Buf ℚ) (w h : ℕ),
    (nearest_resize b w h).h = h ∧ (nearest_resize b w h).w = w :=
  fun _ _ _ => ⟨rfl, rfl⟩

theorem validDims_slide3 (img : ℕ → ℕ → ℕ → ℚ) : ValidDims (slide3 img) := by
  refine ⟨by simp [slide3, dims3], ?_, ?_⟩
  · intro p hp
    simp only [slide3, dims3, List.mem_cons, List.not_mem_nil, or_false] at hp
    rcases hp with h | h | h <;> subst h <;> exact ⟨by norm_num, by norm_num⟩
  · show List.Chain' _ dims3
    unfold dims3
    simp [List.chain'_cons]

theorem validDims_slideWide : ValidDims slideWide := by
  refine ⟨by simp [slideWide], ?_, ?_⟩
  · intro p hp
    simp only [slideWide, List.mem_cons, List.not_mem_nil, or_false] at hp
    subst hp
    exact ⟨by norm_num, by norm_num⟩
  · show List.Chain' _ [(10000, 8000)]
    simp

theorem validDims_slideNear : ValidDims slideNear := by
  refine ⟨by simp [slideNear], ?_, ?_⟩
  · intro p hp
    simp only [slideNear, List.mem_cons, List.not_mem_nil, or_false] at hp
    rcases hp with h | h <;> subst h <;> exact ⟨by norm_num, by norm_num⟩
  · show List.Chain' _ [(1000, 1000), (999, 999)]
    simp [List.chain'_cons]

theorem best_slide3_two (img : ℕ → ℕ → ℕ → ℚ) :
    get_best_level_for_downsample (slide3 img) 2 = 1 := by
  unfold get_best_level_for_downsample
  rw [level_downsamples_slide3]
  rw [if_neg (by norm_num)]
  show best_scan 2 [2, 4] 1 (level_count (slide3 img)) = 1
  unfold best_scan
  rw [if_neg (by norm_num)]
  unfold best_scan
  rw [if_pos (by norm_num)]

theorem level_downsamples_slideWide : level_downsamples slideWide = [1] := by
  unfold level_downsamples levelW slideWide
  simp only [List.map_cons, List.map_nil, List.getD_cons_zero]
  rw [pyRound_eq_int (n := 1) (by norm_num)]
  norm_num

theorem mem_slideWide : (80 : ℚ) ∉ level_downsamples slideWide := by
  rw [level_downsamples_slideWide]
  norm_num

theorem best_slideWide : get_best_level_for_downsample slideWide 80 = 0 := by
  unfold get_best_level_for_downsample
  rw [level_downsamples_slideWide]
  rw [if_neg (by norm_num)]
  show best_scan 80 [] 1 (level_count slideWide) = 0
  unfold best_scan
  rfl

theorem df_slideWide : downsample_factor slideWide (100, 100) = 80 := by
  unfold downsample_factor levelW levelH slideWide
  rw [min_def]
  norm_num

theorem dims_slideWide :
    get_dimensions_for_downsample slideWide 80 = .ok (125, 100) := by
  rw [get_dims_else_eq (by norm_num) mem_slideWide]
  rw [pyRound_eq_int (n := 125) (by norm_num [levelW, slideWide]),
      pyRound_eq_int (n := 100) (by norm_num [levelH, slideWide])]

theorem dsxy_slideWide : ds_x_y_level slideWide 80 (0, 0) 0 = (0, 0) := by
  unfold ds_x_y_level
  rw [level_downsamples_slideWide]
  rw [pyRound_eq_int (n := 0) (by norm_num)]

theorem dsts_slideWide :
    ds_tile_size_level slideWide 80 (125, 100) 0 = (10000, 8000) := by
  unfold ds_tile_size_level
  rw [level_downsamples_slideWide]
  rw [pyRound_eq_int (n := 10000) (by norm_num),
      pyRound_eq_int (n := 8000) (by norm_num)]

/-! ### Claim theorems -/

/-- C1, counterexample: the claim promises a buffer of the requested shape
for every origin, but an origin strictly beyond the far edge of the level
(here x = 1500 on a 1000-wide slide with a 50 by 50 request) makes the
clipped extent negative, and TiffReader._read_region raises a numpy
ValueError from np.ones instead of returning buffers. -/
theorem C1_counterexample :
    read_region (slide1k constImg) nearest_resize (1500, 0) 0 (50, 50)
      false false = .error .negativeDims := by
  apply read_region_far_err
  · show ((levelW (slide1k constImg) 0 : ℕ) : ℤ) < 1500
    norm_num [levelW, slide1k]
  · norm_num

/-- C1, amended: for positive requested sizes, read_region (with the level-0
synthesis flag off) returns pixel and mask buffers of exactly the requested
shape (h, w) for every origin whose clipped extent is non-negative on both
axes (origins in [-w, level_width] and [-h, level_height]); read_region_ds
likewise returns exactly the requested shape whenever downsample > 0 and the
request it derives for the chosen level satisfies the same condition (for an
exact downsample match, the original request; otherwise the rescaled one).
Origins beyond these ranges make the tifffile backend raise instead. -/
theorem C1_shape_amended (s : WSI) (interp : Buf ℚ → ℕ → ℕ → Buf ℚ)
    (Hs : ∀ b w h, (interp b w h).h = h ∧ (interp b w h).w = w) :
    (∀ (x y tw th : ℤ) (level : ℕ) (n : Bool),
      SafeAxis (levelW s level) x tw → SafeAxis (levelH s level) y th →
      ∃ t m, read_region s interp (x, y) level (tw, th) n false = .ok (t, m) ∧
        t.h = th.toNat ∧ t.w = tw.toNat ∧ m.h = th.toNat ∧ m.w = tw.toNat) ∧
    (∀ (x_y ts : ℤ × ℤ) (d : ℚ) (n : Bool), 0 < d →
      d ∈ level_downsamples s →
      SafeAxis (levelW s (get_best_level_for_downsample s d)) x_y.1 ts.1 →
      SafeAxis (levelH s (get_best_level_for_downsample s d)) x_y.2 ts.2 →
      ∃ t m, read_region_ds s interp x_y d ts n false = .ok (t, m) ∧
        t.h = ts.2.toNat ∧ t.w = ts.1.toNat ∧ m.h = ts.2.toNat ∧
        m.w = ts.1.toNat) ∧
    (∀ (x_y ts : ℤ × ℤ) (d : ℚ) (n : Bool), 0 < d →
      d ∉ level_downsamples s → 0 < ts.1 → 0 < ts.2 →
      SafeAxis (levelW s (get_best_level_for_downsample s d))
        (ds_x_y_level s d x_y (get_best_level_for_downsample s d)).1
        (ds_tile_size_level s d ts (get_best_level_for_downsample s d)).1 →
      SafeAxis (levelH s (get_best_level_for_downsample s d))
        (ds_x_y_level s d x_y (get_best_level_for_downsample s d)).2
        (ds_tile_size_level s d ts (get_best_level_for_downsample s d)).2 →
      ∃ t m, read_region_ds s interp x_y d ts n false = .ok (t, m) ∧
        t.h = ts.2.toNat ∧ t.w = ts.1.toNat ∧ m.h = ts.2.toNat ∧
        m.w = ts.1.toNat) := by
  refine ⟨?_, ?_, ?_⟩
  · intro x y tw th level n hx hy
    exact read_region_safe_ok hx hy
  · intro x_y ts d n hd hmem hx hy
    exact ds_exact_ok (not_le.2 hd) hmem hx hy
  · intro x_y ts d n hd hmem hts1 hts2 hx hy
    exact ds_else_ok Hs (not_le.2 hd) hmem hts1 hts2 hx hy

/-- C1, witness: the amended theorem applied at concrete inputs on all three
paths. -/
theorem C1_shape_amended_witness :
    (SafeAxis (levelW (slide1k constImg) 0) (-10) 50 ∧
     ∃ t m, read_region (slide1k constImg) nearest_resize (-10, -10) 0
         (50, 50) false false = .ok (t, m) ∧
       t.h = (50 : ℤ).toNat ∧ t.w = (50 : ℤ).toNat ∧ m.h = (50 : ℤ).toNat ∧
       m.w = (50 : ℤ).toNat) ∧
    ((2 : ℚ) ∈ level_downsamples (slide3 constImg) ∧
     ∃ t m, read_region_ds (slide3 constImg) nearest_resize (0, 0) 2
         (100, 100) false false = .ok (t, m) ∧
       t.h = ((100, 100) : ℤ × ℤ).2.toNat ∧
       t.w = ((100, 100) : ℤ × ℤ).1.toNat ∧
       m.h = ((100, 100) : ℤ × ℤ).2.toNat ∧
       m.w = ((100, 100) : ℤ × ℤ).1.toNat) ∧
    ((3 : ℚ) ∉ level_downsamples (slide3 constImg) ∧
     ∃ t m, read_region_ds (slide3 constImg) nearest_resize (0, 0) 3
         (100, 100) false false = .ok (t, m) ∧
       t.h = ((100, 100) : ℤ × ℤ).2.toNat ∧
       t.w = ((100, 100) : ℤ × ℤ).1.toNat ∧
       m.h = ((100, 100) : ℤ × ℤ).2.toNat ∧
       m.w = ((100, 100) : ℤ × ℤ).1.toNat) := by
  have hW1 : levelW (slide1k constImg) 0 = 1000 := rfl
  have hH1 : levelH (slide1k constImg) 0 = 1000 := rfl
  have hsx : SafeAxis (levelW (slide1k constImg) 0) (-10) 50 := by
    rw [hW1]
    exact ⟨by norm_num, by norm_num, by norm_num⟩
  have hsy : SafeAxis (levelH (slide1k constImg) 0) (-10) 50 := by
    rw [hH1]
    exact ⟨by norm_num, by norm_num, by norm_num⟩
  have hmem2 : (2 : ℚ) ∈ level_downsamples (slide3 constImg) := by
    rw [level_downsamples_slide3]
    norm_num
  have hsx2 : SafeAxis
      (levelW (slide3 constImg) (get_best_level_for_downsample (slide3 constImg) 2))
      ((0, 0) : ℤ × ℤ).1 ((100, 100) : ℤ × ℤ).1 := by
    rw [best_slide3_two]
    exact ⟨by norm_num, by norm_num, by norm_num [levelW, slide3, dims3]⟩
  have hsy2 : SafeAxis
      (levelH (slide3 constImg) (get_best_level_for_downsample (slide3 constImg) 2))
      ((0, 0) : ℤ × ℤ).2 ((100, 100) : ℤ × ℤ).2 := by
    rw [best_slide3_two]
    exact ⟨by norm_num, by norm_num, by norm_num [levelH, slide3, dims3]⟩
  have hsx3 : SafeAxis
      (levelW (slide3 constImg) (get_best_level_for_downsample (slide3 constImg) 3))
      (ds_x_y_level (slide3 constImg) 3 (0, 0)
        (get_best_level_for_downsample (slide3 constImg) 3)).1
      (ds_tile_size_level (slide3 constImg) 3 (100, 100)
        (get_best_level_for_downsample (slide3 constImg) 3)).1 := by
    rw [best_slide3, ds_x_y_slide3, ds_tile_size_slide3]
    exact ⟨by norm_num, by norm_num, by norm_num [levelW, slide3, dims3]⟩
  have hsy3 : SafeAxis
      (levelH (slide3 constImg) (get_best_level_for_downsample (slide3 constImg) 3))
      (ds_x_y_level (slide3 constImg) 3 (0, 0)
        (get_best_level_for_downsample (slide3 constImg) 3)).2
      (ds_tile_size_level (slide3 constImg) 3 (100, 100)
        (get_best_level_for_downsample (slide3 constImg) 3)).2 := by
    rw [best_slide3, ds_x_y_slide3, ds_tile_size_slide3]
    exact ⟨by norm_num, by norm_num, by norm_num [levelH, slide3, dims3]⟩
  refine ⟨⟨hsx, ?_⟩, ⟨hmem2, ?_⟩, ⟨mem_slide3 constImg, ?_⟩⟩
  · exact (C1_shape_amended _ _ nearest_resize_shape).1 (-10) (-10) 50 50 0
      false hsx hsy
  · exact (C1_shape_amended _ _ nearest_resize_shape).2.1 (0, 0) (100, 100) 2
      false (by norm_num) hmem2 hsx2 hsy2
  · exact (C1_shape_amended _ _ nearest_resize_shape).2.2 (0, 0) (100, 100) 3
      false (by norm_num) (mem_slide3 constImg) (by norm_num) (by norm_num)
      hsx3 hsy3

/-- C2: evaluation of the embedded code at the failing input.  A request
whose rectangle lies strictly beyond the slide's far edge (origin (2000, 0)
on a 1000-wide level with a 50 by 50 request) gives a negative clipped
extent of -1000, and the tifffile backend fails on np.ones with a negative
dimension instead of returning an all-invalid padded buffer. -/
theorem C2_out_of_bounds_failure :
    clipExt (levelW (slide1k constImg) 0) 2000 50 = -1000 ∧
    read_region (slide1k constImg) nearest_resize (2000, 0) 0 (50, 50)
      false false = .error .negativeDims := by
  constructor
  · show clipExt 1000 2000 50 = -1000
    unfold clipExt
    norm_num
  · apply read_region_far_err
    · show ((levelW (slide1k constImg) 0 : ℕ) : ℤ) < 2000
      norm_num [levelW, slide1k]
    · norm_num

/-- C3: on the pyramid [(1000,1000),(500,500),(250,250)] the derived
downsamples are [1, 2, 4]; requesting read_region_ds at origin (0,0) with
downsample 3.0 and size (100,100) finds no exact match, selects level 1,
rescales the request to a 150 by 150 fetch at level 1 (origin still (0,0)),
and resamples the fetched region to exactly 100 by 100 pixels and mask. -/
theorem C3_downsample_scenario (img : ℕ → ℕ → ℕ → ℚ)
    (interp : Buf ℚ → ℕ → ℕ → Buf ℚ)
    (Hs : ∀ b w h, (interp b w h).h = h ∧ (interp b w h).w = w) :
    (3 : ℚ) ∉ level_downsamples (slide3 img) ∧
    get_best_level_for_downsample (slide3 img) 3 = 1 ∧
    ds_x_y_level (slide3 img) 3 (0, 0) 1 = (0, 0) ∧
    ds_tile_size_level (slide3 img) 3 (100, 100) 1 = (150, 150) ∧
    ∃ t m, read_region_ds (slide3 img) interp (0, 0) 3 (100, 100) false false =
        .ok (t, m) ∧ t.h = 100 ∧ t.w = 100 ∧ m.h = 100 ∧ m.w = 100 := by
  refine ⟨mem_slide3 img, best_slide3 img, ds_x_y_slide3 img,
    ds_tile_size_slide3 img, ?_⟩
  have hsx : SafeAxis
      (levelW (slide3 img) (get_best_level_for_downsample (slide3 img) 3))
      (ds_x_y_level (slide3 img) 3 (0, 0)
        (get_best_level_for_downsample (slide3 img) 3)).1
      (ds_tile_size_level (slide3 img) 3 (100, 100)
        (get_best_level_for_downsample (slide3 img) 3)).1 := by
    rw [best_slide3, ds_x_y_slide3, ds_tile_size_slide3]
    exact ⟨by norm_num, by norm_num, by norm_num [levelW, slide3, dims3]⟩
  have hsy : SafeAxis
      (levelH (slide3 img) (get_best_level_for_downsample (slide3 img) 3))
      (ds_x_y_level (slide3 img) 3 (0, 0)
        (get_best_level_for_downsample (slide3 img) 3)).2
      (ds_tile_size_level (slide3 img) 3 (100, 100)
        (get_best_level_for_downsample (slide3 img) 3)).2 := by
    rw [best_slide3, ds_x_y_slide3, ds_tile_size_slide3]
    exact ⟨by norm_num, by norm_num, by norm_num [levelH, slide3, dims3]⟩
  obtain ⟨t, m, heq, h1, h2, h3, h4⟩ := ds_else_ok Hs (by norm_num)
    (mem_slide3 img) (by norm_num) (by norm_num) hsx hsy
  exact ⟨t, m, heq, by simpa using h1, by simpa using h2, by simpa using h3,
    by simpa using h4⟩

/-- C3, witness: the scenario theorem applied to a constant image and the
concrete nearest-neighbour resampler. -/
theorem C3_downsample_scenario_witness :
    ((3 : ℚ) ∉ level_downsamples (slide3 constImg) ∧
     get_best_level_for_downsample (slide3 constImg) 3 = 1 ∧
     ds_x_y_level (slide3 constImg) 3 (0, 0) 1 = (0, 0) ∧
     ds_tile_size_level (slide3 constImg) 3 (100, 100) 1 = (150, 150) ∧
     ∃ t m, read_region_ds (slide3 constImg) nearest_resize (0, 0) 3
         (100, 100) false false = .ok (t, m) ∧
       t.h = 100 ∧ t.w = 100 ∧ m.h = 100 ∧ m.w = 100) :=
  C3_downsample_scenario constImg nearest_resize nearest_resize_shape

/-- C4: on a 1000 by 1000 level, read_region at origin (-10,-10), level 0,
size (50,50) (unnormalized) returns a 50 by 50 tile and mask in which every
pixel of the first 10 rows or first 10 columns is invalid, and the remaining
40 by 40 block is valid and equals the backend pixels of region
(0,0)-(40,40). -/
theorem C4_negative_origin_scenario (img : ℕ → ℕ → ℕ → ℚ)
    (interp : Buf ℚ → ℕ → ℕ → Buf ℚ) (i j : ℕ) (hi : i < 50) (hj : j < 50) :
    ∃ t m, read_region (slide1k img) interp (-10, -10) 0 (50, 50) false
        false = .ok (t, m) ∧
      t.h = 50 ∧ t.w = 50 ∧ m.h = 50 ∧ m.w = 50 ∧
      ((i < 10 ∨ j < 10) → m.data i j = false) ∧
      (10 ≤ i → 10 ≤ j → m.data i j = true ∧
        t.data i j = img 0 (i - 10) (j - 10)) := by
  have hsx : SafeAxis (levelW (slide1k img) 0) (-10) 50 := by
    show SafeAxis 1000 (-10) 50
    exact ⟨by norm_num, by norm_num, by norm_num⟩
  have hsy : SafeAxis (levelH (slide1k img) 0) (-10) 50 := by
    show SafeAxis 1000 (-10) 50
    exact ⟨by norm_num, by norm_num, by norm_num⟩
  have hcx : clipExt (levelW (slide1k img) 0) (-10) 50 = 40 := by
    show clipExt 1000 (-10) 50 = 40
    unfold clipExt
    norm_num
  have hcy : clipExt (levelH (slide1k img) 0) (-10) 50 = 40 := by
    show clipExt 1000 (-10) 50 = 40
    unfold clipExt
    norm_num
  have heq := @read_region_safe_eq (slide1k img) interp (-10) (-10) 50 50 0
    false hsx hsy
  rw [hcx, hcy] at heq
  refine ⟨_, _, heq, ?_, ?_, ?_, ?_, ?_, ?_⟩
  · simp only [padBuf, sliceBuf, Bool.false_eq_true, if_false]
    omega
  · simp only [padBuf, sliceBuf, Bool.false_eq_true, if_false]
    omega
  · simp only [padBuf, onesMask]
    omega
  · simp only [padBuf, onesMask]
    omega
  · intro hij
    simp only [padBuf, onesMask]
    split_ifs with hcond
    · exfalso
      omega
    · rfl
  · intro h10i h10j
    constructor
    · simp only [padBuf, onesMask]
      split_ifs with hcond
      · rfl
      · exfalso
        omega
    · simp only [padBuf, sliceBuf, Bool.false_eq_true, if_false]
      split_ifs with hcond
      · show img 0 _ _ = img 0 _ _
        congr 2 <;> omega
      · exfalso
        omega

/-- C4, witness: the scenario theorem applied at a concrete image and a
point in each of the padded and valid areas via concrete indices. -/
theorem C4_negative_origin_scenario_witness :
    (15 < 50 ∧ 20 < 50) ∧
    ∃ t m, read_region (slide1k (fun _ r c => (r * 1000 + c : ℚ)))
        nearest_resize (-10, -10) 0 (50, 50) false false = .ok (t, m) ∧
      t.h = 50 ∧ t.w = 50 ∧ m.h = 50 ∧ m.w = 50 ∧
      ((15 < 10 ∨ 20 < 10) → m.data 15 20 = false) ∧
      (10 ≤ 15 → 10 ≤ 20 → m.data 15 20 = true ∧
        t.data 15 20 = (5010 : ℚ)) := by
  refine ⟨⟨by norm_num, by norm_num⟩, ?_⟩
  obtain ⟨t, m, heq, h1, h2, h3, h4, h5, h6⟩ :=
    C4_negative_origin_scenario (fun _ r c => (r * 1000 + c : ℚ))
      nearest_resize 15 20 (by norm_num) (by norm_num)
  refine ⟨t, m, heq, h1, h2, h3, h4, h5, fun ha hb => ⟨(h6 ha hb).1, ?_⟩⟩
  rw [(h6 ha hb).2]
  norm_num

/-- C5: on a slide whose derived downsample list is strictly increasing with
first element 1.0, get_best_level_for_downsample is monotone non-decreasing
in the downsample, and an exact downsample match returns exactly that level. -/
theorem C5_selector_monotone_exact (s : WSI)
    (hchain : List.Chain' (· < ·) (level_downsamples s))
    (hfirst : (level_downsamples s).getD 0 0 = 1) :
    (∀ d1 d2 : ℚ, d1 ≤ d2 →
      get_best_level_for_downsample s d1 ≤ get_best_level_for_downsample s d2) ∧
    (∀ i, i < level_count s →
      get_best_level_for_downsample s ((level_downsamples s).getD i 0) = i) := by
  have hne : s.level_dimensions ≠ [] := by
    intro h
    have hl : level_downsamples s = [] := by
      unfold level_downsamples
      rw [h]
      rfl
    rw [hl] at hfirst
    simp [List.getD] at hfirst
  exact ⟨fun d1 d2 h => best_mono hne h, fun i hi => best_exact hchain hi⟩

/-- C5, witness: the scenario pyramid has downsamples [1, 2, 4]; monotone at
1.5 against 3, and an exact match at every level. -/
theorem C5_selector_monotone_exact_witness :
    (List.Chain' (· < ·) (level_downsamples (slide3 constImg)) ∧
     (level_downsamples (slide3 constImg)).getD 0 0 = 1) ∧
    ((∀ d1 d2 : ℚ, d1 ≤ d2 →
      get_best_level_for_downsample (slide3 constImg) d1 ≤
        get_best_level_for_downsample (slide3 constImg) d2) ∧
     (∀ i, i < level_count (slide3 constImg) →
      get_best_level_for_downsample (slide3 constImg)
        ((level_downsamples (slide3 constImg)).getD i 0) = i)) := by
  have hchain : List.Chain' (· < ·) (level_downsamples (slide3 constImg)) := by
    rw [level_downsamples_slide3]
    simp only [List.chain'_cons, List.chain'_singleton]
    norm_num
  have hfirst : (level_downsamples (slide3 constImg)).getD 0 0 = 1 := by
    rw [level_downsamples_slide3]
    rfl
  exact ⟨⟨hchain, hfirst⟩,
    C5_selector_monotone_exact (slide3 constImg) hchain hfirst⟩

/-- C6: read_region_ds and get_dimensions_for_downsample produce the
invalid-argument error exactly when the downsample is non-positive.  The
quantification is over every slide, in particular every backing image, so
when the guard fires the result does not depend on any backend data. -/
theorem C6_invalid_downsample_guard (s : WSI)
    (interp : Buf ℚ → ℕ → ℕ → Buf ℚ) (x_y : ℤ × ℤ) (d : ℚ) (ts : ℤ × ℤ)
    (n dl0 : Bool) :
    (read_region_ds s interp x_y d ts n dl0 = .error .invalidArg ↔ d ≤ 0) ∧
    (get_dimensions_for_downsample s d = .error .invalidArg ↔ d ≤ 0) :=
  ⟨read_region_ds_invalidArg_iff s interp x_y d ts n dl0,
   get_dimensions_for_downsample_invalidArg_iff s d⟩

/-- C9: normalization is applied only on request: with an integer dtype the
normalized read equals the unnormalized read with every pixel divided by
255, masks and control flow unchanged; with a floating dtype the two reads
are identical. -/
theorem C9_normalize_opt_in (s : WSI) (interp : Buf ℚ → ℕ → ℕ → Buf ℚ)
    (x_y : ℤ × ℤ) (level : ℕ) (ts : ℤ × ℤ) (dl0 : Bool) :
    (s.isInt = true →
      read_region s interp x_y level ts true dl0 =
        (read_region s interp x_y level ts false dl0).map
          (fun tm => (mapBuf (fun q => q / 255) tm.1, tm.2))) ∧
    (s.isInt = false →
      read_region s interp x_y level ts true dl0 =
        read_region s interp x_y level ts false dl0) := by
  constructor
  · intro hInt
    rw [read_region_normalize]
    have hfun : (fun tm : Buf ℚ × Buf Bool => (normalize_px s tm.1, tm.2)) =
        (fun tm => (mapBuf (fun q => q / 255) tm.1, tm.2)) := by
      funext tm
      simp [normalize_px, hInt]
    rw [hfun]
  · intro hInt
    rw [read_region_normalize]
    have hfun : (fun tm : Buf ℚ × Buf Bool => (normalize_px s tm.1, tm.2)) =
        id := by
      funext tm
      simp [normalize_px, hInt]
    rw [hfun]
    cases read_region s interp x_y level ts false dl0 <;> rfl

/-- C9, witness: the integer-dtype clause applied on a concrete slide. -/
theorem C9_normalize_opt_in_witness :
    (slide3 constImg).isInt = true ∧
    read_region (slide3 constImg) nearest_resize (0, 0) 0 (10, 10) true
        false =
      (read_region (slide3 constImg) nearest_resize (0, 0) 0 (10, 10) false
          false).map
        (fun tm => (mapBuf (fun q => q / 255) tm.1, tm.2)) :=
  ⟨rfl, (C9_normalize_opt_in (slide3 constImg) nearest_resize (0, 0) 0
    (10, 10) false).1 rfl⟩

/-- C10: for every slide with at least one level (and positive,
non-increasing dimensions, without which Python could not even derive the
downsample list), the level selector is total: any rational downsample,
including non-positive values, yields a level in [0, level_count), and any
value below the first derived downsample yields level 0. -/
theorem C10_selector_total (s : WSI) (hv : ValidDims s) (d : ℚ) :
    get_best_level_for_downsample s d < level_count s ∧
    (d < (level_downsamples s).getD 0 0 →
      get_best_level_for_downsample s d = 0) :=
  ⟨best_lt_count hv.1 d, fun h => best_guard h⟩

/-- C10, witness: a negative downsample on the scenario slide yields
level 0, inside [0, 3). -/
theorem C10_selector_total_witness :
    ValidDims (slide3 constImg) ∧
    (get_best_level_for_downsample (slide3 constImg) (-3) <
      level_count (slide3 constImg) ∧
     ((-3 : ℚ) < (level_downsamples (slide3 constImg)).getD 0 0 →
      get_best_level_for_downsample (slide3 constImg) (-3) = 0)) :=
  ⟨validDims_slide3 constImg,
   C10_selector_total (slide3 constImg) (validDims_slide3 constImg) (-3)⟩

/-- C7, counterexample: on a 10000 by 8000 slide, get_downsampled_slide for
requested dims (100, 100) computes factor min(100, 80) = 80 and returns a
125 by 100 buffer: the width axis exceeds the requested box, so the result
does not fit within it. -/
theorem C7_downsampled_slide_counterexample :
    downsample_factor slideWide (100, 100) = 80 ∧
    ∃ t m, get_downsampled_slide slideWide nearest_resize (100, 100) false =
        .ok (t, m) ∧ t.w = 125 ∧ t.h = 100 ∧ ¬ t.w ≤ 100 := by
  have hsx : SafeAxis
      (levelW slideWide (get_best_level_for_downsample slideWide 80))
      (ds_x_y_level slideWide 80 (0, 0)
        (get_best_level_for_downsample slideWide 80)).1
      (ds_tile_size_level slideWide 80 (125, 100)
        (get_best_level_for_downsample slideWide 80)).1 := by
    rw [best_slideWide, dsxy_slideWide, dsts_slideWide]
    exact ⟨by norm_num, by norm_num, by norm_num [levelW, slideWide]⟩
  have hsy : SafeAxis
      (levelH slideWide (get_best_level_for_downsample slideWide 80))
      (ds_x_y_level slideWide 80 (0, 0)
        (get_best_level_for_downsample slideWide 80)).2
      (ds_tile_size_level slideWide 80 (125, 100)
        (get_best_level_for_downsample slideWide 80)).2 := by
    rw [best_slideWide, dsxy_slideWide, dsts_slideWide]
    exact ⟨by norm_num, by norm_num, by norm_num [levelH, slideWide]⟩
  obtain ⟨t, m, hds, h1, h2, h3, h4⟩ :=
    @ds_else_ok slideWide nearest_resize nearest_resize_shape
      ((0 : ℤ), (0 : ℤ)) ((125 : ℤ), (100 : ℤ)) 80 false
      (by norm_num) mem_slideWide (by norm_num) (by norm_num) hsx hsy
  have hgds : get_downsampled_slide slideWide nearest_resize (100, 100)
      false = read_region_ds slideWide nearest_resize (0, 0) 80 (125, 100)
        false false := by
    simp only [get_downsampled_slide, df_slideWide, dims_slideWide,
      Except.bind]
  have htw : t.w = 125 := by simpa using h2
  have hth : t.h = 100 := by simpa using h1
  refine ⟨df_slideWide, t, m, ?_, htw, hth, by omega⟩
  rw [hgds, hds]

/-- C7, amended: get_downsampled_slide computes the uniform factor as the
minimum of the per-axis ratios level0_dim / requested_dim; because the
minimum (not the maximum) is used, any buffer it successfully returns when
that factor is not an exact stored downsample COVERS the requested box: each
axis is at least the requested dimension, possibly exceeding it. -/
theorem C7_downsampled_slide_amended (s : WSI)
    (interp : Buf ℚ → ℕ → ℕ → Buf ℚ)
    (Hs : ∀ b w h, (interp b w h).h = h ∧ (interp b w h).w = w)
    (dims : ℤ × ℤ) (hv : ValidDims s) (h1 : 0 < dims.1) (h2 : 0 < dims.2)
    (hne : downsample_factor s dims ∉ level_downsamples s) :
    downsample_factor s dims =
      min ((levelW s 0 : ℚ) / (dims.1 : ℚ)) ((levelH s 0 : ℚ) / (dims.2 : ℚ)) ∧
    ∀ (n : Bool) (t : Buf ℚ) (m : Buf Bool),
      get_downsampled_slide s interp dims n = .ok (t, m) →
      dims.1 ≤ (t.w : ℤ) ∧ dims.2 ≤ (t.h : ℤ) := by
  obtain ⟨hw0, hh0⟩ := validDims_level0_pos hv
  have hdpos : 0 < downsample_factor s dims := by
    unfold downsample_factor
    apply lt_min
    · exact div_pos (by exact_mod_cast hw0) (by exact_mod_cast h1)
    · exact div_pos (by exact_mod_cast hh0) (by exact_mod_cast h2)
  refine ⟨rfl, ?_⟩
  intro n t m hok
  simp only [get_downsampled_slide] at hok
  rw [get_dims_else_eq (not_le.2 hdpos) hne] at hok
  simp only [Except.bind] at hok
  rw [read_region_ds_else_eq (not_le.2 hdpos) hne] at hok
  obtain ⟨tm1, hcore, htm⟩ := except_map_ok hok
  obtain ⟨tm0, hrr, hcv⟩ := except_bind_ok hcore
  by_cases hc : tm0.1.h = 0 ∨ tm0.1.w = 0 ∨
      ((pyRound ((levelW s 0 : ℚ) / downsample_factor s dims),
        pyRound ((levelH s 0 : ℚ) / downsample_factor s dims)) : ℤ × ℤ).1 ≤ 0 ∨
      ((pyRound ((levelW s 0 : ℚ) / downsample_factor s dims),
        pyRound ((levelH s 0 : ℚ) / downsample_factor s dims)) : ℤ × ℤ).2 ≤ 0
  · rw [if_pos hc] at hcv
    cases hcv
  · rw [if_neg hc] at hcv
    injection hcv with hcv1
    have ht : t = (if n then normalize_px s tm1.1 else tm1.1) :=
      congrArg Prod.fst htm
    have htw : t.w = tm1.1.w := by
      rw [ht]
      cases n
      · simp
      · simp [normalize_px_w]
    have hth : t.h = tm1.1.h := by
      rw [ht]
      cases n
      · simp
      · simp [normalize_px_h]
    have hW : tm1.1.w =
        (pyRound ((levelW s 0 : ℚ) / downsample_factor s dims)).toNat := by
      rw [← hcv1]
      exact (Hs _ _ _).2
    have hH : tm1.1.h =
        (pyRound ((levelH s 0 : ℚ) / downsample_factor s dims)).toNat := by
      rw [← hcv1]
      exact (Hs _ _ _).1
    have hkeyW : dims.1 ≤ pyRound ((levelW s 0 : ℚ) / downsample_factor s dims) := by
      apply le_pyRound
      rw [le_div_iff₀ hdpos]
      have hd_le : downsample_factor s dims ≤ (levelW s 0 : ℚ) / (dims.1 : ℚ) :=
        min_le_left _ _
      have := (le_div_iff₀ (by exact_mod_cast h1)).1 hd_le
      linarith
    have hkeyH : dims.2 ≤ pyRound ((levelH s 0 : ℚ) / downsample_factor s dims) := by
      apply le_pyRound
      rw [le_div_iff₀ hdpos]
      have hd_le : downsample_factor s dims ≤ (levelH s 0 : ℚ) / (dims.2 : ℚ) :=
        min_le_right _ _
      have := (le_div_iff₀ (by exact_mod_cast h2)).1 hd_le
      linarith
    constructor
    · rw [htw, hW]
      omega
    · rw [hth, hH]
      omega

/-- C7, witness: the amended theorem applied on the 10000 by 8000 slide with
requested dims (100, 100); the successful call of the counterexample shows
the covering bound is attained with a 125 by 100 result. -/
theorem C7_downsampled_slide_amended_witness :
    (ValidDims slideWide ∧ (0 : ℤ) < ((100, 100) : ℤ × ℤ).1 ∧
     downsample_factor slideWide (100, 100) ∉ level_downsamples slideWide) ∧
    (downsample_factor slideWide (100, 100) =
      min ((levelW slideWide 0 : ℚ) / (((100, 100) : ℤ × ℤ).1 : ℚ))
        ((levelH slideWide 0 : ℚ) / (((100, 100) : ℤ × ℤ).2 : ℚ)) ∧
     ∀ (n : Bool) (t : Buf ℚ) (m : Buf Bool),
       get_downsampled_slide slideWide nearest_resize (100, 100) n =
         .ok (t, m) →
       ((100, 100) : ℤ × ℤ).1 ≤ (t.w : ℤ) ∧
       ((100, 100) : ℤ × ℤ).2 ≤ (t.h : ℤ)) := by
  have hne : downsample_factor slideWide (100, 100) ∉
      level_downsamples slideWide := by
    rw [df_slideWide]
    exact mem_slideWide
  exact ⟨⟨validDims_slideWide, by norm_num, hne⟩,
    C7_downsampled_slide_amended slideWide nearest_resize
      nearest_resize_shape (100, 100) validDims_slideWide (by norm_num)
      (by norm_num) hne⟩

/-- C8, counterexample: the slide [(1000,1000), (999,999)] has positive,
per-axis non-increasing level dimensions, yet its derived downsample list is
[1.0, 1.0] - round(1000/999) = 1 - which is not strictly increasing. -/
theorem C8_downsamples_counterexample :
    ValidDims slideNear ∧
    level_downsamples slideNear = [1, 1] ∧
    ¬ List.Chain' (· < ·) (level_downsamples slideNear) := by
  have hfl : ⌊((1000 : ℕ) : ℚ) / ((999 : ℕ) : ℚ)⌋ = 1 := by
    rw [Int.floor_eq_iff]
    constructor <;> norm_num
  have hfr : Int.fract (((1000 : ℕ) : ℚ) / ((999 : ℕ) : ℚ)) < 1/2 := by
    unfold Int.fract
    rw [hfl]
    norm_num
  have h2 : pyRound (((1000 : ℕ) : ℚ) / ((999 : ℕ) : ℚ)) = 1 := by
    rw [pyRound_eq_floor hfr, hfl]
  have hld : level_downsamples slideNear = [1, 1] := by
    unfold level_downsamples levelW slideNear
    simp only [List.map_cons, List.map_nil, List.getD_cons_zero]
    rw [pyRound_eq_int (n := 1) (by norm_num), h2]
    norm_num
  refine ⟨validDims_slideNear, hld, ?_⟩
  rw [hld]
  simp [List.chain'_cons]

/-- C8, amended: for every slide with at least one level, positive
dimensions, and per-axis non-increasing level dimensions, the derived
downsample list round(width_0 / width_level) has first element 1.0 and is
monotone non-decreasing (strict growth can fail when adjacent levels round
to the same factor). -/
theorem C8_downsamples_amended (s : WSI) (hv : ValidDims s) :
    (level_downsamples s).getD 0 0 = 1 ∧
    List.Chain' (· ≤ ·) (level_downsamples s) :=
  ⟨level_downsamples_first hv.1 hv.2.1, level_downsamples_chain hv⟩

/-- C8, witness: the amended theorem applied to the near-equal two-level
slide whose derived list is [1, 1]. -/
theorem C8_downsamples_amended_witness :
    ValidDims slideNear ∧
    ((level_downsamples slideNear).getD 0 0 = 1 ∧
     List.Chain' (· ≤ ·) (level_downsamples slideNear)) :=
  ⟨validDims_slideNear, C8_downsamples_amended slideNear validDims_slideNear⟩
